import Mathlib

/-!
Verification of the `audioleft` audio-extraction tool.

The repository consists of two Python modules:
* `audioleft/extractor.py` — codec probing (`get_audio_codec`), codec→extension
  table (`get_extension_for_codec`), the ffmpeg transcode extractor
  (`extract_audio`) and the default output-path resolver (`get_output_path`);
* `audioleft/__main__.py` — the CLI front-end (`main`).

The source manipulates filesystem paths through Python's `pathlib.Path`
(POSIX flavour assumed).  We embed the `PurePosixPath` operations the source
uses — construction/`str` round-trip (which normalises spurious slashes and
single-dot components), `name`, `stem`, `suffix`, `with_suffix`, `parent`
and the `/` join — as executable functions on the character list of a path
string.  Filesystem state and subprocess execution are abstracted as
oracles (`FileSystem`, `List String → RunOutcome`); every call into either
is recorded in a `Trace` so that claims about spawned processes and
directory creation can be stated.
-/

namespace Audioleft

/-- Split a character list at every `'/'` (exact slash-separated fields,
empty fields kept), mirroring how `pathlib` tokenises a POSIX path string. -/
def splitParts : List Char → List (List Char)
  | [] => [[]]
  | c :: rest =>
    if c = '/' then [] :: splitParts rest
    else
      match splitParts rest with
      | [] => [[c]]
      | p :: ps => (c :: p) :: ps

/-- Number of leading slashes of a path string. -/
def leadingSlashes : List Char → Nat
  | '/' :: rest => leadingSlashes rest + 1
  | _ => 0

/-- The root of a POSIX path string: `pathlib` keeps exactly two leading
slashes as a `"//"` anchor, and collapses one or three-or-more to `"/"`. -/
def pathRoot (cs : List Char) : List Char :=
  if leadingSlashes cs = 2 then ['/', '/']
  else if 1 ≤ leadingSlashes cs then ['/']
  else []

/-- The retained components of a POSIX path: empty fields (spurious slashes)
and single-dot components are dropped, as `PurePosixPath` does. -/
def pathComps (cs : List Char) : List (List Char) :=
  (splitParts cs).filter (fun c => !(c == [] || c == ['.']))

/-- Join components with `'/'` separators (the character-level `'/'.join`). -/
def sepJoin : List (List Char) → List Char
  | [] => []
  | [x] => x
  | x :: xs => x ++ '/' :: sepJoin xs

/-- `str(Path(s))` for a POSIX path: the normalised rendering of `s`
(root anchor plus retained components; the empty relative path prints `"."`). -/
def pathStr (s : String) : String :=
  let root := pathRoot s.data
  let comps := pathComps s.data
  if root = [] ∧ comps = [] then "."
  else String.mk (root ++ sepJoin comps)

/-- `Path(s).name`: the final retained component, `""` when there is none. -/
def pathName (s : String) : String :=
  String.mk (((pathComps s.data).getLast?).getD [])

/-- Index of the last `'.'` in a name, if any. -/
def rfindDot (name : List Char) : Option Nat :=
  ((List.range name.length).filter (fun i => name[i]? == some '.')).getLast?

/-- Split a final path component into `(stem, suffix)` the way `pathlib`
does: the suffix starts at the last dot provided that dot is neither the
first nor the last character of the name; otherwise the suffix is empty. -/
def splitSuffixCs (name : List Char) : List Char × List Char :=
  match rfindDot name with
  | some i =>
    if 0 < i ∧ i < name.length - 1 then (name.take i, name.drop i)
    else (name, [])
  | none => (name, [])

/-- `Path(s).stem`. -/
def pathStem (s : String) : String :=
  String.mk (splitSuffixCs (((pathComps s.data).getLast?).getD [])).1

/-- `Path(s).suffix`. -/
def pathSuffix (s : String) : String :=
  String.mk (splitSuffixCs (((pathComps s.data).getLast?).getD [])).2

/-- `Path(s).parent` rendered as a string: drop the last component; a path
with no components is its own parent. -/
def pathParent (s : String) : String :=
  let root := pathRoot s.data
  let comps := pathComps s.data
  match comps with
  | [] => pathStr s
  | _ =>
    let c := comps.dropLast
    if root = [] ∧ c = [] then "."
    else String.mk (root ++ sepJoin c)

/-- `str(Path(dir) / nm)` for a plain (slash-free, non-empty) filename `nm`:
append `nm` as one more component of the parsed `dir`. -/
def pathJoin (dir nm : String) : String :=
  String.mk (pathRoot dir.data ++ sepJoin (pathComps dir.data ++ [nm.data]))

/-- `Path(s).with_suffix(suf)`: `none` models the `ValueError` raised by
`pathlib` (suffix containing the separator, suffix not starting with a dot,
bare-dot suffix, or a path with an empty name); otherwise the last
component's suffix is replaced (or `suf` appended when there is none). -/
def withSuffix (s suf : String) : Option String :=
  if suf.data.contains '/' then none
  else if (suf ≠ "" ∧ suf.data.head? ≠ some '.') ∨ suf = "." then none
  else
    let name := ((pathComps s.data).getLast?).getD []
    if name = [] then none
    else
      let st := (splitSuffixCs name).1
      let old := (splitSuffixCs name).2
      let newName := if old = [] then name ++ suf.data else st ++ suf.data
      some (String.mk (pathRoot s.data ++
        sepJoin ((pathComps s.data).dropLast ++ [newName])))

/-! ## Python error values and external-world oracles -/

/-- The Python exception kinds raised (or propagated) by the two modules. -/
inductive PyError where
  | fileNotFoundError (msg : String)
  | valueError (msg : String)
  | runtimeError (msg : String)
  | keyboardInterrupt
deriving DecidableEq, Repr

/-- Filesystem oracle: `Path.exists()` and `Path.is_file()` answers, queried
on the normalised (`str(Path(...))`) form of a path. -/
structure FileSystem where
  pathExists : String → Bool
  pathIsFile : String → Bool

/-- Outcome of a `subprocess.run(cmd, check=True, capture_output=True)`
call: normal exit, `CalledProcessError` (non-zero exit, with captured
stderr), `FileNotFoundError` (the executable is absent from `PATH`), or a
`KeyboardInterrupt` delivered while waiting. -/
inductive RunOutcome where
  | success (stdout stderr : String)
  | calledProcessError (stderr : String)
  | execNotFound
  | interrupted
deriving Repr

/-- Side effects performed during one `extract_audio` call: every directory
passed to `Path.mkdir(parents=True, exist_ok=True)` and every command
passed to `subprocess.run`. -/
structure Trace where
  mkdirCalls : List String
  spawnedCmds : List (List String)
deriving DecidableEq, Repr

/-! ## `audioleft/extractor.py` -/

/-- Probe outcome consumed by `get_audio_codec`: the `subprocess.run` result
with its JSON decoding folded in (`parsed` carries the decoded object;
`badJson` models `json.JSONDecodeError`). An audio stream object is
represented by its optional `codec_name` field. -/
structure StreamObj where
  codec_name : Option String
deriving DecidableEq, Repr

/-- The decoded ffprobe JSON object: `data.get('streams')` yields `none`
when the key is absent. -/
structure ProbeData where
  streams : Option (List StreamObj)
deriving DecidableEq, Repr

/-- See `RunOutcome`; `ffprobe`'s run outcome with JSON decoding folded in. -/
inductive ProbeOutcome where
  | parsed (data : ProbeData)
  | calledProcessError (stderr : String)
  | execNotFound
  | badJson (msg : String)
deriving Repr

/-- `get_audio_codec` (extractor.py lines 10–55): after building the ffprobe
command, run it; on success parse the JSON and fail with `RuntimeError` when
`data.get('streams')` is falsy (absent key or empty list), else return the
first stream's `codec_name`, defaulting to `"unknown"`; translate
`CalledProcessError`, `FileNotFoundError` and `JSONDecodeError` into
`RuntimeError`s with the messages of the source. -/
def get_audio_codec (probe : ProbeOutcome) (input_path : String) :
    Except PyError String :=
  match probe with
  | .parsed data =>
    match data.streams with
    | none => .error (.runtimeError ("No audio stream found in: " ++ input_path))
    | some [] => .error (.runtimeError ("No audio stream found in: " ++ input_path))
    | some (s :: _) => .ok (s.codec_name.getD "unknown")
  | .calledProcessError stderr =>
    .error (.runtimeError ("ffprobe failed: " ++ stderr))
  | .execNotFound =>
    .error (.runtimeError
      "ffprobe not found. Please install ffmpeg:\n  sudo apt-get install ffmpeg")
  | .badJson m =>
    .error (.runtimeError ("Failed to parse ffprobe output: " ++ m))

/-- The ffprobe command built by `get_audio_codec` (extractor.py lines 23–30). -/
def probeCmd (input_path : String) : List String :=
  ["ffprobe", "-v", "quiet", "-print_format", "json", "-show_streams",
   "-select_streams", "a:0", input_path]

/-- `get_extension_for_codec` (extractor.py lines 58–84): `codec_map.get(codec, '.mka')`. -/
def get_extension_for_codec (codec : String) : String :=
  let codec_map : List (String × String) :=
    [("aac", ".m4a"), ("mp3", ".mp3"), ("opus", ".opus"), ("vorbis", ".ogg"),
     ("flac", ".flac"), ("pcm_s16le", ".wav"), ("pcm_s24le", ".wav"),
     ("pcm_s32le", ".wav"), ("alac", ".m4a"), ("ac3", ".ac3"),
     ("eac3", ".eac3"), ("dts", ".dts"), ("truehd", ".thd")]
  match codec_map.lookup codec with
  | some ext => ext
  | none => ".mka"

/-- The keys of `codec_map` in `get_extension_for_codec`. -/
def codecMapKeys : List String :=
  ["aac", "mp3", "opus", "vorbis", "flac", "pcm_s16le", "pcm_s24le",
   "pcm_s32le", "alac", "ac3", "eac3", "dts", "truehd"]

/-- `extract_audio` (extractor.py lines 87–142): validate that the input
exists and is a regular file (in that order), create the output file's
parent directory, build the fixed ffmpeg transcode command and run it,
translating `CalledProcessError` and `FileNotFoundError` into
`RuntimeError`s. Returns the Python-level result together with the `Trace`
of side effects; a `KeyboardInterrupt` from `subprocess.run` is not caught
by the source's `try`/`except` and propagates. -/
def extract_audio (fs : FileSystem) (run : List String → RunOutcome)
    (input_path output_path : String) : Except PyError Unit × Trace :=
  let input_file := pathStr input_path
  if fs.pathExists input_file = false then
    (.error (.fileNotFoundError ("Input file not found: " ++ input_path)),
     ⟨[], []⟩)
  else if fs.pathIsFile input_file = false then
    (.error (.valueError ("Input path is not a file: " ++ input_path)),
     ⟨[], []⟩)
  else
    let output_file := pathStr output_path
    let madeDir := pathParent output_file
    let cmd := ["ffmpeg", "-i", input_file, "-vn", "-acodec", "pcm_s16le",
                "-ar", "44100", "-ac", "2", "-y", output_file]
    match run cmd with
    | .success _ _ => (.ok (), ⟨[madeDir], [cmd]⟩)
    | .calledProcessError stderr =>
      (.error (.runtimeError ("Audio extraction failed:\nSTDERR: " ++ stderr
        ++ "\nCommand: " ++ String.intercalate " " cmd)), ⟨[madeDir], [cmd]⟩)
    | .execNotFound =>
      (.error (.runtimeError
        "ffmpeg not found. Please install ffmpeg:\n  sudo apt-get install ffmpeg"),
       ⟨[madeDir], [cmd]⟩)
    | .interrupted => (.error .keyboardInterrupt, ⟨[madeDir], [cmd]⟩)

/-- The default output directory of `get_output_path` (extractor.py
line 165): `Path(__file__).parent.parent.parent / 'audio_data'`, with
`file` standing for the module's `__file__` path. -/
def defaultOutputDir (file : String) : String :=
  pathJoin (pathParent (pathParent (pathParent file))) "audio_data"

/-- `get_output_path` (extractor.py lines 145–166): the output name is the
input's stem plus `".wav"`; a truthy `output_dir` (Python truthiness: the
empty string counts as absent) hosts it, otherwise the default directory
does. -/
def get_output_path (file : String) (input_path : String)
    (output_dir : Option String) : String :=
  let output_name := pathStem input_path ++ ".wav"
  match output_dir with
  | some d =>
    if d ≠ "" then pathJoin d output_name
    else pathJoin (defaultOutputDir file) output_name
  | none => pathJoin (defaultOutputDir file) output_name

/-- Modelled from the spec: the copy-variant output-path resolver (spec
§4.5, "Copy policy") is not present under `src/`; per the spec its output
filename is the input stem plus the original input extension, with the same
default-directory fallback as the transcode policy. -/
def get_output_path_copy (file : String) (input_path : String)
    (output_dir : Option String) : String :=
  let output_name := pathStem input_path ++ pathSuffix input_path
  match output_dir with
  | some d =>
    if d ≠ "" then pathJoin d output_name
    else pathJoin (defaultOutputDir file) output_name
  | none => pathJoin (defaultOutputDir file) output_name

/-! ## `audioleft/__main__.py` -/

/-- Observable behaviour of one `main()` invocation: the process exit code,
the lines printed to stdout and stderr, and the `(input, output)` pair
passed to `extract_audio` when the call was reached. -/
structure CliResult where
  exitCode : Nat
  stdoutLines : List String
  stderrLines : List String
  calledExtract : Option (String × String)
deriving DecidableEq, Repr

/-- Message of the `ValueError` raised by `Path.with_suffix` (the exact
CPython wording is not reproduced; no claim depends on it). -/
def withSuffixValueErrorText (o : String) : String :=
  "Invalid suffix or empty name: " ++ o

/-- Output-path determination of `main` (`__main__.py` lines 33–37): with a
truthy `--output` (Python truthiness: the empty string counts as absent)
the suffix is forced to `.wav` via `Path.with_suffix` (whose `ValueError`
is the `.error` case), otherwise `get_output_path(args.input)` supplies the
path. -/
def cliOutputPath (file : String) (input : String) (output? : Option String) :
    Except String String :=
  match output? with
  | some o =>
    if o ≠ "" then
      match withSuffix o ".wav" with
      | some p => .ok p
      | none => .error (withSuffixValueErrorText o)
    else .ok (get_output_path file input none)
  | none => .ok (get_output_path file input none)

/-- The `except` clauses of `main` (`__main__.py` lines 48–59): translate
the outcome of the `extract_audio` call into an exit code, stdout lines and
stderr lines. -/
def reportCli (input output_path : String) (res : Except PyError Unit) :
    CliResult :=
  let pre := ["Input:  " ++ input, "Output: " ++ output_path,
              "Extracting audio..."]
  match res with
  | .ok _ =>
    { exitCode := 0,
      stdoutLines := pre ++ ["✓ Audio extraction completed successfully!"],
      stderrLines := [], calledExtract := some (input, output_path) }
  | .error (.fileNotFoundError m) =>
    { exitCode := 1, stdoutLines := pre, stderrLines := ["Error: " ++ m],
      calledExtract := some (input, output_path) }
  | .error (.valueError m) =>
    { exitCode := 1, stdoutLines := pre, stderrLines := ["Error: " ++ m],
      calledExtract := some (input, output_path) }
  | .error (.runtimeError m) =>
    { exitCode := 1, stdoutLines := pre, stderrLines := ["Error: " ++ m],
      calledExtract := some (input, output_path) }
  | .error .keyboardInterrupt =>
    { exitCode := 130, stdoutLines := pre,
      stderrLines := ["\nOperation cancelled by user"],
      calledExtract := some (input, output_path) }

/-- `main` (`__main__.py` lines 10–59) after argument parsing: determine
the output path (a `ValueError` there is caught by the same `except` chain
and exits 1), invoke `extract_audio`, and map its outcome to the process
result. -/
def cliMain (file : String) (fs : FileSystem) (run : List String → RunOutcome)
    (input : String) (output? : Option String) : CliResult :=
  match cliOutputPath file input output? with
  | .error m =>
    { exitCode := 1, stdoutLines := [], stderrLines := ["Error: " ++ m],
      calledExtract := none }
  | .ok output_path =>
    reportCli input output_path (extract_audio fs run input output_path).1

/-! ## Concrete oracles used to instantiate the theorems -/

/-- A filesystem on which every path exists and is a regular file. -/
def fsAll : FileSystem := ⟨fun _ => true, fun _ => true⟩

/-- A filesystem on which no path exists. -/
def fsMissing : FileSystem := ⟨fun _ => false, fun _ => false⟩

/-- A filesystem on which every path exists but none is a regular file
(e.g. the path is a directory). -/
def fsDirOnly : FileSystem := ⟨fun _ => true, fun _ => false⟩

/-- A subprocess oracle on which every run exits 0. -/
def runOk : List String → RunOutcome := fun _ => .success "" ""

/-- A subprocess oracle on which the executable is absent from `PATH`. -/
def runNoTool : List String → RunOutcome := fun _ => .execNotFound

/-- A subprocess oracle on which every run exits non-zero. -/
def runFailing : List String → RunOutcome := fun _ => .calledProcessError "boom"

/-- A subprocess oracle on which every run is interrupted by the user. -/
def runInterrupted : List String → RunOutcome := fun _ => .interrupted

/-! ## Path-model lemmas -/

theorem sepJoin_concat (l : List (List Char)) (x : List Char) :
    ∃ p, sepJoin (l ++ [x]) = p ++ x := by
  induction l with
  | nil => exact ⟨[], rfl⟩
  | cons a t ih =>
    cases t with
    | nil => exact ⟨a ++ ['/'], by simp [sepJoin]⟩
    | cons b t2 =>
      obtain ⟨p, hp⟩ := ih
      refine ⟨a ++ '/' :: p, ?_⟩
      show a ++ '/' :: sepJoin (b :: t2 ++ [x]) = (a ++ '/' :: p) ++ x
      rw [hp]
      simp

/-- A joined filename is a suffix (at character level) of the join. -/
theorem pathJoin_data_suffix (dir nm : String) :
    nm.data <:+ (pathJoin dir nm).data := by
  obtain ⟨p, hp⟩ := sepJoin_concat (pathComps dir.data) nm.data
  exact ⟨pathRoot dir.data ++ p, by simp [pathJoin, hp]⟩

/-- The `pathlib` split of a name into stem and suffix loses nothing. -/
theorem splitSuffixCs_append (name : List Char) :
    (splitSuffixCs name).1 ++ (splitSuffixCs name).2 = name := by
  unfold splitSuffixCs
  cases rfindDot name with
  | none => simp
  | some i =>
    by_cases h : 0 < i ∧ i < name.length - 1
    · simp [h]
    · simp [h]

/-- `stem + suffix = name`, at the `String` level. -/
theorem pathStem_append_pathSuffix (s : String) :
    pathStem s ++ pathSuffix s = pathName s := by
  show String.mk (_ ++ _) = _
  rw [splitSuffixCs_append]
  rfl

/-- `splitParts` never produces an empty list of fields. -/
theorem splitParts_ne_nil (cs : List Char) : splitParts cs ≠ [] := by
  induction cs with
  | nil => simp [splitParts]
  | cons c rest ih =>
    simp only [splitParts]
    split
    · simp
    · split
      · simp
      · simp

/-- No field produced by `splitParts` contains a slash. -/
theorem splitParts_no_slash (cs : List Char) :
    ∀ c ∈ splitParts cs, '/' ∉ c := by
  induction cs with
  | nil => intro c hc; simp [splitParts] at hc; simp [hc]
  | cons a rest ih =>
    intro c hc
    simp only [splitParts] at hc
    by_cases ha : a = '/'
    · rw [if_pos ha] at hc
      rcases List.mem_cons.mp hc with h | h
      · simp [h]
      · exact ih c h
    · rw [if_neg ha] at hc
      rcases hsp : splitParts rest with _ | ⟨p, ps⟩
      · exact absurd hsp (splitParts_ne_nil rest)
      · rw [hsp] at hc
        rcases List.mem_cons.mp hc with h | h
        · subst h
          intro hmem
          rcases List.mem_cons.mp hmem with h | h
          · exact ha h.symm
          · exact ih p (by rw [hsp]; exact List.mem_cons_self p ps) h
        · exact ih c (by rw [hsp]; exact List.mem_cons_of_mem p h)

/-- Splitting a slash-free field followed by a slash peels off that field. -/
theorem splitParts_append_slash (c t : List Char) (hc : '/' ∉ c) :
    splitParts (c ++ '/' :: t) = c :: splitParts t := by
  induction c with
  | nil => simp [splitParts]
  | cons a c2 ih =>
    have ha : a ≠ '/' := fun h => hc (h ▸ List.mem_cons_self a c2)
    have hc2 : '/' ∉ c2 := fun h => hc (List.mem_cons_of_mem a h)
    show splitParts (a :: (c2 ++ '/' :: t)) = (a :: c2) :: splitParts t
    have hstep : splitParts (a :: (c2 ++ '/' :: t)) =
        if a = '/' then [] :: splitParts (c2 ++ '/' :: t)
        else
          match splitParts (c2 ++ '/' :: t) with
          | [] => [[a]]
          | p :: ps => (a :: p) :: ps := rfl
    rw [hstep, if_neg ha, ih hc2]

/-- Splitting a slash-free field alone recovers exactly that field. -/
theorem splitParts_of_no_slash (c : List Char) (hc : '/' ∉ c) :
    splitParts c = [c] := by
  induction c with
  | nil => simp [splitParts]
  | cons x xs ih =>
    have hx : x ≠ '/' := fun h => hc (h ▸ List.mem_cons_self x xs)
    have hxs : '/' ∉ xs := fun h => hc (List.mem_cons_of_mem x h)
    simp only [splitParts, if_neg hx, ih hxs]

/-- `splitParts` is a left inverse of `sepJoin` on nonempty lists of
slash-free fields. -/
theorem splitParts_sepJoin (l : List (List Char)) (hne : l ≠ [])
    (hl : ∀ c ∈ l, '/' ∉ c) : splitParts (sepJoin l) = l := by
  induction l with
  | nil => exact absurd rfl hne
  | cons a t ih =>
    cases t with
    | nil =>
      exact splitParts_of_no_slash a (hl a (List.mem_cons_self a []))
    | cons b t2 =>
      have ha : '/' ∉ a := hl a (List.mem_cons_self a (b :: t2))
      have hrec : splitParts (sepJoin (b :: t2)) = b :: t2 :=
        ih (by simp) (fun c hc => hl c (List.mem_cons_of_mem a hc))
      show splitParts (a ++ '/' :: sepJoin (b :: t2)) = a :: b :: t2
      rw [splitParts_append_slash a _ ha, hrec]

/-- The three possible values of a POSIX root. -/
theorem pathRoot_cases (cs : List Char) :
    pathRoot cs = [] ∨ pathRoot cs = ['/'] ∨ pathRoot cs = ['/', '/'] := by
  unfold pathRoot
  split_ifs <;> simp

/-- Every retained component already passes the retention filter. -/
theorem pathComps_filter_self (cs : List Char) :
    List.filter (fun c => !(c == [] || c == ['.'])) (pathComps cs) =
      pathComps cs := by
  apply List.filter_eq_self.mpr
  intro a ha
  simp only [pathComps] at ha
  exact (List.mem_filter.mp ha).2

/-- Retained components are slash-free. -/
theorem pathComps_no_slash (cs : List Char) :
    ∀ c ∈ pathComps cs, '/' ∉ c :=
  fun c hc => splitParts_no_slash cs c (List.mem_of_mem_filter hc)

/-- A leading slash does not change the retained components. -/
theorem pathComps_slash_cons (u : List Char) :
    pathComps ('/' :: u) = pathComps u := rfl

/-- A POSIX root prefix does not change the retained components. -/
theorem pathComps_root_append (r t : List Char)
    (hr : r = [] ∨ r = ['/'] ∨ r = ['/', '/']) :
    pathComps (r ++ t) = pathComps t := by
  rcases hr with h | h | h <;> subst h
  · rfl
  · exact pathComps_slash_cons t
  · show pathComps ('/' :: '/' :: t) = pathComps t
    rw [pathComps_slash_cons, pathComps_slash_cons]

/-- Parsing the rendering of the retained components recovers them. -/
theorem pathComps_sepJoin_pathComps (cs : List Char) :
    pathComps (sepJoin (pathComps cs)) = pathComps cs := by
  rcases hc : pathComps cs with _ | ⟨c0, cs0⟩
  · rfl
  · have hne : pathComps cs ≠ [] := by rw [hc]; simp
    have hsp := splitParts_sepJoin (pathComps cs) hne (pathComps_no_slash cs)
    have hfs := pathComps_filter_self cs
    rw [hc] at hsp hfs
    show List.filter _ (splitParts (sepJoin (c0 :: cs0))) = c0 :: cs0
    rw [hsp]
    exact hfs

/-- `str(Path(s))` round-trip: re-parsing the normalised rendering of a path
yields the same retained components, hence the same name, stem and suffix. -/
theorem pathComps_pathStr (s : String) :
    pathComps (pathStr s).data = pathComps s.data := by
  rw [show pathStr s = (if pathRoot s.data = [] ∧ pathComps s.data = []
      then "." else String.mk (pathRoot s.data ++ sepJoin (pathComps s.data)))
      from rfl]
  split
  · rename_i h
    rw [h.2]
    rfl
  · show pathComps (pathRoot s.data ++ sepJoin (pathComps s.data)) =
      pathComps s.data
    rw [pathComps_root_append _ _ (pathRoot_cases s.data)]
    exact pathComps_sepJoin_pathComps s.data

/-- Normalisation preserves a path's suffix (its extension). -/
theorem pathSuffix_pathStr (s : String) :
    pathSuffix (pathStr s) = pathSuffix s := by
  unfold pathSuffix
  rw [pathComps_pathStr]

/-- Normalisation preserves a path's stem. -/
theorem pathStem_pathStr (s : String) :
    pathStem (pathStr s) = pathStem s := by
  unfold pathStem
  rw [pathComps_pathStr]

/-! ## Claim theorems -/

/-- C1: for every call to `extract_audio`, a non-existent input fails with
`FileNotFoundError` ("NotFound") and an existing input that is not a regular
file fails with `ValueError` ("InvalidArgument"); the existence check comes
first (the first conjunct assumes nothing about `is_file`), and in both
failure cases no external process is spawned. -/
theorem extract_audio_validation_order
    (fs : FileSystem) (run : List String → RunOutcome) (i o : String) :
    (fs.pathExists (pathStr i) = false →
      (extract_audio fs run i o).1 =
        .error (.fileNotFoundError ("Input file not found: " ++ i)) ∧
      (extract_audio fs run i o).2.spawnedCmds = []) ∧
    (fs.pathExists (pathStr i) = true → fs.pathIsFile (pathStr i) = false →
      (extract_audio fs run i o).1 =
        .error (.valueError ("Input path is not a file: " ++ i)) ∧
      (extract_audio fs run i o).2.spawnedCmds = []) := by
  constructor
  · intro h
    simp [extract_audio, h]
  · intro h1 h2
    simp [extract_audio, h1, h2]

/-- Witness for C1 on concrete inputs. -/
theorem extract_audio_validation_order_witness :
    (extract_audio fsMissing runOk "gone.mkv" "o.wav").1 =
      .error (.fileNotFoundError "Input file not found: gone.mkv") ∧
    (extract_audio fsMissing runOk "gone.mkv" "o.wav").2.spawnedCmds = [] ∧
    (extract_audio fsDirOnly runOk "somedir" "o.wav").1 =
      .error (.valueError "Input path is not a file: somedir") ∧
    (extract_audio fsDirOnly runOk "somedir" "o.wav").2.spawnedCmds = [] := by
  have h1 := (extract_audio_validation_order fsMissing runOk "gone.mkv" "o.wav").1 rfl
  have h2 := (extract_audio_validation_order fsDirOnly runOk "somedir" "o.wav").2 rfl rfl
  exact ⟨h1.1, h1.2, h2.1, h2.2⟩

/-- C9: when `extract_audio` fails input validation (input missing, or
present but not a regular file), it raises an exception and its side-effect
trace is empty — in particular no output parent directory is created. -/
theorem extract_audio_no_mutation_on_invalid
    (fs : FileSystem) (run : List String → RunOutcome) (i o : String)
    (h : fs.pathExists (pathStr i) = false ∨
      (fs.pathExists (pathStr i) = true ∧ fs.pathIsFile (pathStr i) = false)) :
    (extract_audio fs run i o).2.mkdirCalls = [] ∧
    (extract_audio fs run i o).2 = ⟨[], []⟩ ∧
    ∃ e, (extract_audio fs run i o).1 = Except.error e := by
  rcases h with h | ⟨h1, h2⟩
  · exact ⟨by simp [extract_audio, h], by simp [extract_audio, h],
      ⟨.fileNotFoundError ("Input file not found: " ++ i),
        by simp [extract_audio, h]⟩⟩
  · exact ⟨by simp [extract_audio, h1, h2], by simp [extract_audio, h1, h2],
      ⟨.valueError ("Input path is not a file: " ++ i),
        by simp [extract_audio, h1, h2]⟩⟩

/-- Witness for C9 on concrete inputs. -/
theorem extract_audio_no_mutation_on_invalid_witness :
    (extract_audio fsMissing runOk "gone.mkv" "o.wav").2.mkdirCalls = [] ∧
    (extract_audio fsDirOnly runOk "somedir" "o.wav").2.mkdirCalls = [] := by
  have h1 := extract_audio_no_mutation_on_invalid fsMissing runOk "gone.mkv"
    "o.wav" (Or.inl rfl)
  have h2 := extract_audio_no_mutation_on_invalid fsDirOnly runOk "somedir"
    "o.wav" (Or.inr ⟨rfl, rfl⟩)
  exact ⟨h1.1, h2.1⟩

/-- C2: whenever validation passes, `extract_audio` hands `subprocess.run`
exactly one command, `ffmpeg -i <input> -vn -acodec pcm_s16le -ar 44100
-ac 2 -y <output>` in that argument order, where `<input>`/`<output>` are
the `str(Path(...))` renderings of the arguments (the arguments themselves
whenever they are already in normal form); being a pure function of its
arguments, the command is rebuilt fresh on every invocation. -/
theorem extract_audio_command_shape
    (fs : FileSystem) (run : List String → RunOutcome) (i o : String)
    (h1 : fs.pathExists (pathStr i) = true)
    (h2 : fs.pathIsFile (pathStr i) = true) :
    (extract_audio fs run i o).2.spawnedCmds =
      [["ffmpeg", "-i", pathStr i, "-vn", "-acodec", "pcm_s16le",
        "-ar", "44100", "-ac", "2", "-y", pathStr o]] ∧
    (pathStr i = i → pathStr o = o →
      (extract_audio fs run i o).2.spawnedCmds =
        [["ffmpeg", "-i", i, "-vn", "-acodec", "pcm_s16le",
          "-ar", "44100", "-ac", "2", "-y", o]]) := by
  have hmain : (extract_audio fs run i o).2.spawnedCmds =
      [["ffmpeg", "-i", pathStr i, "-vn", "-acodec", "pcm_s16le",
        "-ar", "44100", "-ac", "2", "-y", pathStr o]] := by
    rcases hr : run ["ffmpeg", "-i", pathStr i, "-vn", "-acodec", "pcm_s16le",
      "-ar", "44100", "-ac", "2", "-y", pathStr o] <;>
      simp [extract_audio, h1, h2, hr]
  refine ⟨hmain, fun hi ho => ?_⟩
  rw [hi, ho] at hmain
  exact hmain

/-- Witness for C2 on concrete inputs. -/
theorem extract_audio_command_shape_witness :
    (extract_audio fsAll runOk "in.mkv" "out.wav").2.spawnedCmds =
      [["ffmpeg", "-i", "in.mkv", "-vn", "-acodec", "pcm_s16le",
        "-ar", "44100", "-ac", "2", "-y", "out.wav"]] :=
  (extract_audio_command_shape fsAll runOk "in.mkv" "out.wav" rfl rfl).2
    (by decide) (by decide)

/-- C3: the extension resolver is a total pure function returning exactly
the tabulated extension for each of the thirteen codec names in
`codec_map`, and `".mka"` for every string outside the table. -/
theorem get_extension_for_codec_table :
    (get_extension_for_codec "aac" = ".m4a" ∧
     get_extension_for_codec "mp3" = ".mp3" ∧
     get_extension_for_codec "opus" = ".opus" ∧
     get_extension_for_codec "vorbis" = ".ogg" ∧
     get_extension_for_codec "flac" = ".flac" ∧
     get_extension_for_codec "pcm_s16le" = ".wav" ∧
     get_extension_for_codec "pcm_s24le" = ".wav" ∧
     get_extension_for_codec "pcm_s32le" = ".wav" ∧
     get_extension_for_codec "alac" = ".m4a" ∧
     get_extension_for_codec "ac3" = ".ac3" ∧
     get_extension_for_codec "eac3" = ".eac3" ∧
     get_extension_for_codec "dts" = ".dts" ∧
     get_extension_for_codec "truehd" = ".thd") ∧
    ∀ codec : String, codec ∉ codecMapKeys →
      get_extension_for_codec codec = ".mka" := by
  constructor
  · exact ⟨rfl, rfl, rfl, rfl, rfl, rfl, rfl, rfl, rfl, rfl, rfl, rfl, rfl⟩
  · intro codec hc
    simp [codecMapKeys] at hc
    obtain ⟨h1, h2, h3, h4, h5, h6, h7, h8, h9, h10, h11, h12, h13⟩ := hc
    have b : ∀ s : String, codec ≠ s → (codec == s) = false :=
      fun s hs => beq_eq_false_iff_ne.mpr hs
    simp [get_extension_for_codec, List.lookup, b _ h1, b _ h2, b _ h3,
      b _ h4, b _ h5, b _ h6, b _ h7, b _ h8, b _ h9, b _ h10, b _ h11,
      b _ h12, b _ h13]

/-- Witness for C3 on a codec outside the table. -/
theorem get_extension_for_codec_table_witness :
    "h264" ∉ codecMapKeys ∧ get_extension_for_codec "h264" = ".mka" :=
  ⟨by decide, get_extension_for_codec_table.2 "h264" (by decide)⟩

/-- C4: the transcode output-path resolver names the output after the
input's stem plus `.wav` (so the original extension never reaches the
output name: inputs with equal stems yield equal outputs), places it in the
caller-supplied directory when one is given, and otherwise in the fixed
`audio_data` directory obtained by three `parent` steps from the
component's own `__file__`. -/
theorem get_output_path_policy (file input d : String) (hd : d ≠ "") :
    get_output_path file input (some d) =
      pathJoin d (pathStem input ++ ".wav") ∧
    get_output_path file input none =
      pathJoin (defaultOutputDir file) (pathStem input ++ ".wav") ∧
    (pathStem input ++ ".wav").data <:+
      (get_output_path file input (some d)).data ∧
    (∀ i2, pathStem input = pathStem i2 →
      get_output_path file input (some d) = get_output_path file i2 (some d)) ∧
    defaultOutputDir file =
      pathJoin (pathParent (pathParent (pathParent file))) "audio_data" := by
  have h1 : get_output_path file input (some d) =
      pathJoin d (pathStem input ++ ".wav") := by
    simp [get_output_path, hd]
  refine ⟨h1, rfl, ?_, ?_, rfl⟩
  · rw [h1]
    exact pathJoin_data_suffix d (pathStem input ++ ".wav")
  · intro i2 h
    simp [get_output_path, hd, h]

/-- Witness for C4 on concrete inputs. -/
theorem get_output_path_policy_witness :
    get_output_path "/a/b/c/extractor.py" "/videos/movie.mkv" (some "outdir") =
      "outdir/movie.wav" ∧
    get_output_path "/a/b/c/extractor.py" "/videos/movie.mkv" none =
      "/a/audio_data/movie.wav" := by
  have h := get_output_path_policy "/a/b/c/extractor.py" "/videos/movie.mkv"
    "outdir" (by decide)
  exact ⟨Eq.trans h.1 (by decide), Eq.trans h.2.1 (by decide)⟩

/-- C8 (spec-modelled): the copy-variant output-path resolver keeps the
input's own extension — its output name is the input stem plus the input
suffix, which together are exactly the input's filename — and falls back to
the same default directory as the transcode policy. -/
theorem get_output_path_copy_policy (file input d : String) (hd : d ≠ "") :
    get_output_path_copy file input (some d) =
      pathJoin d (pathStem input ++ pathSuffix input) ∧
    get_output_path_copy file input none =
      pathJoin (defaultOutputDir file) (pathStem input ++ pathSuffix input) ∧
    pathStem input ++ pathSuffix input = pathName input ∧
    (pathSuffix input).data <:+
      (get_output_path_copy file input (some d)).data := by
  have h1 : get_output_path_copy file input (some d) =
      pathJoin d (pathStem input ++ pathSuffix input) := by
    simp [get_output_path_copy, hd]
  refine ⟨h1, rfl, pathStem_append_pathSuffix input, ?_⟩
  rw [h1]
  have hx := pathJoin_data_suffix d (pathStem input ++ pathSuffix input)
  have hy : (pathSuffix input).data <:+
      (pathStem input ++ pathSuffix input).data :=
    ⟨(pathStem input).data, rfl⟩
  exact hy.trans hx

/-- Witness for C8 on concrete inputs. -/
theorem get_output_path_copy_policy_witness :
    get_output_path_copy "/a/b/c/extractor.py" "/videos/movie.mkv"
      (some "outdir") = "outdir/movie.mkv" ∧
    get_output_path_copy "/a/b/c/extractor.py" "/videos/movie.mkv" none =
      "/a/audio_data/movie.mkv" := by
  have h := get_output_path_copy_policy "/a/b/c/extractor.py"
    "/videos/movie.mkv" "outdir" (by decide)
  exact ⟨Eq.trans h.1 (by decide), Eq.trans h.2.1 (by decide)⟩

/-- C6: the codec inspector fails with the "no audio stream" `RuntimeError`
(and never returns a codec) when the probe parses but reports zero audio
streams (missing or empty `streams`), returns the literal `"unknown"` when
the first stream has no `codec_name` field, and when the probing tool is
absent fails with a `RuntimeError` whose message contains installation
guidance. -/
theorem get_audio_codec_cases (input : String) :
    (∀ d : ProbeData, (d.streams = none ∨ d.streams = some []) →
      get_audio_codec (.parsed d) input =
        .error (.runtimeError ("No audio stream found in: " ++ input)) ∧
      ∀ c, get_audio_codec (.parsed d) input ≠ .ok c) ∧
    (∀ rest : List StreamObj,
      get_audio_codec (.parsed ⟨some (⟨none⟩ :: rest)⟩) input =
        .ok "unknown") ∧
    (∃ msg, get_audio_codec .execNotFound input =
        .error (.runtimeError msg) ∧
      "Please install ffmpeg".data <:+: msg.data) := by
  refine ⟨?_, fun rest => rfl, ?_⟩
  · rintro ⟨s⟩ hd
    rcases hd with h | h <;> simp only at h <;> subst h <;>
      exact ⟨rfl, fun c => by simp [get_audio_codec]⟩
  · exact ⟨"ffprobe not found. Please install ffmpeg:\n  sudo apt-get install ffmpeg",
      rfl,
      ⟨"ffprobe not found. ".data, ":\n  sudo apt-get install ffmpeg".data,
        by decide⟩⟩

/-- A rendered path whose final component ends in `".wav"` ends in `".wav"`. -/
theorem wav_tail_suffix (root : List Char) (dl : List (List Char))
    (x : List Char) :
    ".wav".data <:+
      (String.mk (root ++ sepJoin (dl ++ [x ++ ".wav".data]))).data := by
  obtain ⟨p, hp⟩ := sepJoin_concat dl (x ++ ".wav".data)
  refine ⟨root ++ p ++ x, ?_⟩
  show (root ++ p ++ x) ++ ".wav".data = root ++ sepJoin (dl ++ [x ++ ".wav".data])
  rw [hp]
  simp [List.append_assoc]

/-- Whatever `with_suffix('.wav')` returns ends in `".wav"`. -/
theorem withSuffix_wav_data_suffix (o r : String)
    (h : withSuffix o ".wav" = some r) : ".wav".data <:+ r.data := by
  simp only [withSuffix] at h
  split at h
  · exact Option.noConfusion h
  · split at h
    · exact Option.noConfusion h
    · split at h
      · exact Option.noConfusion h
      · injection h with h
        subst h
        split
        · exact wav_tail_suffix _ _ _
        · exact wav_tail_suffix _ _ _

/-- Every branch of the exception mapping records the extraction call. -/
theorem reportCli_calledExtract (input output_path : String)
    (res : Except PyError Unit) :
    (reportCli input output_path res).calledExtract =
      some (input, output_path) := by
  rcases res with e | v
  · rcases e <;> rfl
  · rfl

/-- C5: whenever `--output` is supplied (truthy) and the extractor is
reached, the output path handed to `extract_audio` is exactly the
`with_suffix('.wav')` rewriting of the supplied value, and it ends in
`".wav"` whatever extension the caller supplied. -/
theorem cli_forces_wav_suffix (file : String) (fs : FileSystem)
    (run : List String → RunOutcome) (input o : String)
    (iop : String × String) (ho : o ≠ "")
    (hc : (cliMain file fs run input (some o)).calledExtract = some iop) :
    withSuffix o ".wav" = some iop.2 ∧ ".wav".data <:+ iop.2.data := by
  rcases hw : withSuffix o ".wav" with _ | p
  · have hnone : (cliMain file fs run input (some o)).calledExtract = none := by
      simp [cliMain, cliOutputPath, ho, hw]
    rw [hnone] at hc
    exact Option.noConfusion hc
  · have hsome : (cliMain file fs run input (some o)).calledExtract =
        some (input, p) := by
      simp [cliMain, cliOutputPath, ho, hw, reportCli_calledExtract]
    rw [hsome] at hc
    injection hc with hc
    subst hc
    exact ⟨rfl, withSuffix_wav_data_suffix o p hw⟩

/-- Witness for C5 on a concrete `--output` with a non-`.wav` extension. -/
theorem cli_forces_wav_suffix_witness :
    withSuffix "out.mp3" ".wav" = some "out.wav" ∧
    ".wav".data <:+ "out.wav".data :=
  cli_forces_wav_suffix "f" fsAll runOk "in.mkv" "out.mp3"
    ("in.mkv", "out.wav") (by decide) (by decide)

/-- Witness for C6 on concrete probe data. -/
theorem get_audio_codec_cases_witness :
    get_audio_codec (.parsed ⟨some []⟩) "v.mkv" =
      .error (.runtimeError "No audio stream found in: v.mkv") ∧
    get_audio_codec (.parsed ⟨some [⟨none⟩]⟩) "v.mkv" = .ok "unknown" := by
  have h := get_audio_codec_cases "v.mkv"
  exact ⟨(h.1 ⟨some []⟩ (Or.inr rfl)).1, h.2.1 []⟩

/-- C7: the CLI front-end's only exit codes are 0, 1 and 130; when the
output-path computation already fails the exit code is 1 with a stderr
message; when extraction is reached, success exits 0 with empty stderr,
each of `FileNotFoundError` (file not found), `ValueError` (invalid
argument) and `RuntimeError` (tool failure) exits 1 printing `Error: <msg>`
to stderr, and `KeyboardInterrupt` exits 130 with a stderr message. -/
theorem cli_exit_codes (file : String) (fs : FileSystem)
    (run : List String → RunOutcome) (input : String)
    (output? : Option String) :
    ((cliMain file fs run input output?).exitCode = 0 ∨
     (cliMain file fs run input output?).exitCode = 1 ∨
     (cliMain file fs run input output?).exitCode = 130) ∧
    ((cliMain file fs run input output?).calledExtract = none →
      (cliMain file fs run input output?).exitCode = 1 ∧
      (cliMain file fs run input output?).stderrLines ≠ []) ∧
    (∀ iop, (cliMain file fs run input output?).calledExtract = some iop →
      ((extract_audio fs run iop.1 iop.2).1 = .ok () →
        (cliMain file fs run input output?).exitCode = 0 ∧
        (cliMain file fs run input output?).stderrLines = []) ∧
      (∀ m, (extract_audio fs run iop.1 iop.2).1 =
          .error (.fileNotFoundError m) →
        (cliMain file fs run input output?).exitCode = 1 ∧
        (cliMain file fs run input output?).stderrLines = ["Error: " ++ m]) ∧
      (∀ m, (extract_audio fs run iop.1 iop.2).1 = .error (.valueError m) →
        (cliMain file fs run input output?).exitCode = 1 ∧
        (cliMain file fs run input output?).stderrLines = ["Error: " ++ m]) ∧
      (∀ m, (extract_audio fs run iop.1 iop.2).1 = .error (.runtimeError m) →
        (cliMain file fs run input output?).exitCode = 1 ∧
        (cliMain file fs run input output?).stderrLines = ["Error: " ++ m]) ∧
      ((extract_audio fs run iop.1 iop.2).1 = .error .keyboardInterrupt →
        (cliMain file fs run input output?).exitCode = 130 ∧
        (cliMain file fs run input output?).stderrLines =
          ["\nOperation cancelled by user"])) := by
  rcases hop : cliOutputPath file input output? with m | p
  · have hcm : cliMain file fs run input output? =
        { exitCode := 1, stdoutLines := [],
          stderrLines := ["Error: " ++ m], calledExtract := none } := by
      simp [cliMain, hop]
    rw [hcm]
    refine ⟨Or.inr (Or.inl rfl), fun _ => ⟨rfl, by simp⟩, ?_⟩
    intro iop hiop
    exact absurd hiop (by simp)
  · have hcm : cliMain file fs run input output? =
        reportCli input p (extract_audio fs run input p).1 := by
      simp [cliMain, hop]
    rw [hcm]
    refine ⟨?_, ?_, ?_⟩
    · rcases hex : (extract_audio fs run input p).1 with e | v
      · rcases e <;> simp [reportCli]
      · simp [reportCli]
    · rw [reportCli_calledExtract]
      intro h
      exact Option.noConfusion h
    · intro iop hiop
      rw [reportCli_calledExtract] at hiop
      injection hiop with hiop
      subst hiop
      refine ⟨?_, ?_, ?_, ?_, ?_⟩
      · intro hex
        rw [hex]
        simp [reportCli]
      · intro m hex
        rw [hex]
        simp [reportCli]
      · intro m hex
        rw [hex]
        simp [reportCli]
      · intro m hex
        rw [hex]
        simp [reportCli]
      · intro hex
        rw [hex]
        simp [reportCli]

/-- Witness for C7: success exits 0, a missing tool exits 1, an interrupt
exits 130. -/
theorem cli_exit_codes_witness :
    (cliMain "f" fsAll runOk "in.mkv" none).exitCode = 0 ∧
    (cliMain "f" fsAll runNoTool "in.mkv" none).exitCode = 1 ∧
    (cliMain "f" fsAll runInterrupted "in.mkv" none).exitCode = 130 := by
  have h0 := cli_exit_codes "f" fsAll runOk "in.mkv" none
  have h1 := cli_exit_codes "f" fsAll runNoTool "in.mkv" none
  have h2 := cli_exit_codes "f" fsAll runInterrupted "in.mkv" none
  refine ⟨?_, ?_, ?_⟩
  · exact ((h0.2.2 ("in.mkv", "audio_data/in.wav") (by decide)).1 rfl).1
  · exact ((h1.2.2 ("in.mkv", "audio_data/in.wav") (by decide)).2.2.2.1
      "ffmpeg not found. Please install ffmpeg:\n  sudo apt-get install ffmpeg"
      rfl).1
  · exact ((h2.2.2 ("in.mkv", "audio_data/in.wav") (by decide)).2.2.2.2
      rfl).1

/-- C10 counterexample: `extract_audio` does not pass the `output_path`
string verbatim — for the non-normalised output string `"a//b.mp3"` the
final argument of the spawned command is the `str(Path(...))` rendering
`"a/b.mp3"`, and the supplied string appears nowhere in the command. -/
theorem extract_audio_not_verbatim :
    (extract_audio fsAll runOk "in.mkv" "a//b.mp3").2.spawnedCmds =
      [["ffmpeg", "-i", "in.mkv", "-vn", "-acodec", "pcm_s16le",
        "-ar", "44100", "-ac", "2", "-y", "a/b.mp3"]] ∧
    "a/b.mp3" ≠ "a//b.mp3" ∧
    "a//b.mp3" ∉ ["ffmpeg", "-i", "in.mkv", "-vn", "-acodec", "pcm_s16le",
      "-ar", "44100", "-ac", "2", "-y", "a/b.mp3"] := by
  decide

/-- C10 amended: `extract_audio` never enforces or rewrites the output
extension — when validation passes it spawns one command whose final
argument is the normalised rendering `str(Path(output_path))`, whose stem
and suffix are those of the supplied string (so a `.mp3` name stays a
`.mp3` name), and which is the supplied string itself whenever that string
is already in normal form. -/
theorem extract_audio_output_not_rewritten
    (fs : FileSystem) (run : List String → RunOutcome) (i o : String)
    (h1 : fs.pathExists (pathStr i) = true)
    (h2 : fs.pathIsFile (pathStr i) = true) :
    ∃ cmd, (extract_audio fs run i o).2.spawnedCmds = [cmd] ∧
      cmd.getLast? = some (pathStr o) ∧
      pathSuffix (pathStr o) = pathSuffix o ∧
      pathStem (pathStr o) = pathStem o ∧
      (pathStr o = o → cmd.getLast? = some o) := by
  refine ⟨["ffmpeg", "-i", pathStr i, "-vn", "-acodec", "pcm_s16le",
    "-ar", "44100", "-ac", "2", "-y", pathStr o], ?_, rfl,
    pathSuffix_pathStr o, pathStem_pathStr o, fun ho => by rw [ho]; rfl⟩
  rcases hr : run ["ffmpeg", "-i", pathStr i, "-vn", "-acodec", "pcm_s16le",
    "-ar", "44100", "-ac", "2", "-y", pathStr o] <;>
    simp [extract_audio, h1, h2, hr]

/-- Witness for the amended C10 on a concrete `.mp3` output path. -/
theorem extract_audio_output_not_rewritten_witness :
    ∃ cmd, (extract_audio fsAll runOk "in.mkv" "song.mp3").2.spawnedCmds =
        [cmd] ∧
      cmd.getLast? = some (pathStr "song.mp3") ∧
      pathSuffix (pathStr "song.mp3") = pathSuffix "song.mp3" ∧
      pathStem (pathStr "song.mp3") = pathStem "song.mp3" ∧
      (pathStr "song.mp3" = "song.mp3" → cmd.getLast? = some "song.mp3") :=
  extract_audio_output_not_rewritten fsAll runOk "in.mkv" "song.mp3" rfl rfl

end Audioleft
